import Mathlib

/-!
Verification of the AI-Developer task orchestrator's core against its
natural-language specification.

The development shallowly embeds the Python sources:
  * `file_ops.py`    — the Mutation Engine (`_safe_path`, `_refuse_if_locked`,
                       `apply_operations`);
  * `utils.py`       — the Lock Registry (`AUTOMATION_CORE`);
  * `task_runner.py` and `providers/llm_openai.py` — the per-task execution
    pipeline (`run_task`, `call_openai_chat`), with the external OpenAI
    network/JSON layer abstracted as a `ProposerOutcome`-valued parameter;
  * `orchestrator_ai_parallel_with_archive.py` — task validation, the git
    integration block, archiving, and the scheduling loop of `main`
    (`validate_task`, `execute_task`, the filter/merge/persist logic).

The filesystem is modelled as an association list of file paths to contents
plus a list of directories ensured to exist (`os.makedirs` is recorded as
ensuring the direct parent directory; intermediate ancestors are not tracked
separately).  POSIX paths are modelled lexically: `os.path.join` for a
relative second argument concatenates with "/", and `os.path.abspath`
performs `normpath`-style lexical normalization (".."/"." elimination, no
symlink resolution — exactly as in CPython, which never consults the real
filesystem in `abspath` beyond the working directory).  `str.splitlines` is
modelled for "\n" separators, the only line terminator occurring in the
engine's text payloads.
-/

deriving instance DecidableEq for Except

/-! ## String primitives

Python's `str` methods are modelled by structurally recursive functions over
the character list of a `String` (Lean's own position-based `String` library
functions do not reduce inside the kernel, so the model re-implements the
handful of primitives it needs). -/

/-- `str.split(sep)` for a one-character separator: always at least one
fragment, empty fragments preserved. -/
def chSplit (sep : Char) : List Char → List (List Char)
  | [] => [[]]
  | c :: cs =>
    if c = sep then [] :: chSplit sep cs
    else
      match chSplit sep cs with
      | r :: rs => (c :: r) :: rs
      | [] => [[c]]

def splitOnChar (sep : Char) (s : String) : List String :=
  (chSplit sep s.data).map String.mk

/-- `str.join` for a one-character separator. -/
def intercalateChar (sep : Char) (xs : List String) : String :=
  String.mk (((xs.map String.data).intersperse [sep]).flatten)

/-- `str.startswith(pre)`. -/
def pyStartsWith (s pre : String) : Bool :=
  pre.data.isPrefixOf s.data

/-- `str.endswith(suf)`. -/
def pyEndsWith (s suf : String) : Bool :=
  suf.data.isSuffixOf s.data

/-- `str.lower()` (ASCII range, the range exercised by action names). -/
def pyLower (s : String) : String :=
  String.mk (s.data.map Char.toLower)

/-- `str.strip()` for the common whitespace characters. -/
def pyStrip (s : String) : String :=
  let ws := fun c => c = ' ' ∨ c = '\n' ∨ c = '\t' ∨ c = '\r'
  String.mk (((s.data.dropWhile ws).reverse.dropWhile ws).reverse)

/-! ## Path arithmetic (os.path.join / abspath / basename / dirname) -/

/-- `os.path.join root p` for an absolute `root`: an absolute `p` discards
`root`, otherwise the components are joined with "/". `root` is assumed to
carry no trailing slash (true of `os.getcwd()` away from "/"). -/
def joinPath (root p : String) : String :=
  if pyStartsWith p "/" then p else root ++ "/" ++ p

/-- Lexical normalization of an absolute POSIX path, as `os.path.normpath`:
empty and "." components vanish, ".." pops the previous component (and is
dropped at the root). The CPython "//"-preserving corner case is not
modelled. -/
def normalizeAbs (s : String) : String :=
  let comps := (splitOnChar '/' s).foldl
    (fun acc c =>
      if c = "" ∨ c = "." then acc
      else if c = ".." then acc.dropLast
      else acc ++ [c]) []
  "/" ++ intercalateChar '/' comps

/-- `os.path.basename`: everything after the last "/". -/
def basename (p : String) : String :=
  ((splitOnChar '/' p).getLast?).getD p

/-- `os.path.dirname`: everything before the last "/" (with the Python
conventions `dirname "f" = ""` and `dirname "/f" = "/"`). -/
def dirname (p : String) : String :=
  match (splitOnChar '/' p).dropLast with
  | [] => ""
  | [""] => "/"
  | comps => intercalateChar '/' comps

/-! ## Filesystem state -/

/-- The mutated file tree: file path ↦ content, plus the set of directories
ensured to exist by `os.makedirs`. -/
structure FS where
  files : List (String × String)
  dirs : List String
deriving DecidableEq, Repr

def FS.getFile (fs : FS) (p : String) : Option String :=
  (fs.files.find? (fun kv => kv.1 = p)).map (fun kv => kv.2)

/-- Create-or-truncate-and-write: the effect of `open(p, "w"); f.write(c)`
(and the final state of an append) on the file map. -/
def FS.setFile (fs : FS) (p c : String) : FS :=
  if fs.files.any (fun kv => kv.1 = p) then
    { fs with files := fs.files.map (fun kv => if kv.1 = p then (p, c) else kv) }
  else
    { fs with files := fs.files ++ [(p, c)] }

/-- `os.makedirs(d, exist_ok=True)`. -/
def FS.makedirs (fs : FS) (d : String) : FS :=
  if d ∈ fs.dirs then fs else { fs with dirs := fs.dirs ++ [d] }

/-! ## Operations and errors (file_ops.py) -/

/-- One Proposer-produced operation, a Python dict with optional keys.
A missing `content` key and `""` coincide (`op.get("content", "")`). -/
structure Op where
  action : Option String := none
  path : Option String := none
  content : String := ""
deriving DecidableEq, Repr

/-- The distinct `raise ValueError(...)` sites of `file_ops.py`, by site. -/
inductive OpError
  | missingActionPath (i : Nat)
  | pathEscape (path : String)
  | lockedFile (base : String)
  | patchTargetMissing (path : String)
  | unknownAction (action : String)
deriving DecidableEq, Repr

/-- The message text each site formats into its `ValueError`. -/
def opErrorMsg : OpError → String
  | .missingActionPath i => "Operation " ++ toString i ++ " missing action/path."
  | .pathEscape p => "Refusing to write outside repo: " ++ p
  | .lockedFile b => "Refusing to modify locked file: " ++ b
  | .patchTargetMissing p => "Patch target does not exist: " ++ p
  | .unknownAction a => "Unknown action: " ++ a

/-- `utils.AUTOMATION_CORE`, the Lock Registry's protected basename set. -/
def AUTOMATION_CORE : List String :=
  ["orchestrator_ai_parallel_with_archive.py",
   "task_runner.py",
   "utils.py",
   "git_utils.py",
   "reset_tasks.py"]

/-- `file_ops._safe_path`: `full = os.path.abspath(os.path.join(REPO_ROOT, path))`,
refused when `not full.startswith(REPO_ROOT)`. `root` stands for the
module-level `REPO_ROOT`. -/
def safe_path (root path : String) : Except OpError String :=
  let full := normalizeAbs (joinPath root path)
  if pyStartsWith full root then .ok full else .error (.pathEscape path)

/-- `file_ops._refuse_if_locked`: refuse when the basename of the (resolved)
path is in `AUTOMATION_CORE`. -/
def refuse_if_locked (path : String) : Except OpError Unit :=
  let base := basename path
  if base ∈ AUTOMATION_CORE then .error (.lockedFile base) else .ok ()

/-- Modelled from the spec: the Sandbox Resolver's intended descendant
relation — `p` is the project root itself or lies strictly below it. Used
only to compare the spec's containment notion with `safe_path`'s
string-prefix test. -/
def descendantOfRoot (root p : String) : Bool :=
  p == root || pyStartsWith p (root ++ "/")

/-! ## difflib.restore and str.splitlines -/

/-- `str.splitlines()` for "\n"-terminated text: splits on "\n" and drops a
final empty fragment (so `"" ↦ []` and a trailing newline adds no fragment). -/
def pySplitlines (s : String) : List String :=
  let parts := splitOnChar '\n' s
  match parts.getLast? with
  | some "" => parts.dropLast
  | _ => parts

/-- `difflib.restore(delta, 1)`: keeps lines prefixed "  " or "- " (stripped
of the two-character tag) and silently drops every other line. It is total —
it raises only for a `which` outside {1,2}, never for unparseable input. -/
def difflibRestore1 (delta : List String) : List String :=
  delta.filterMap (fun line =>
    if line.data.take 2 = "  ".data ∨ line.data.take 2 = "- ".data then
      some (String.mk (line.data.drop 2))
    else none)

/-- The patch branch's final write:
`"\n".join(patched) + ("\n" if patched and not patched[-1].endswith("\n") else "")`. -/
def joinWithNewline (patched : List String) : String :=
  intercalateChar '\n' patched ++
    (match patched.getLast? with
     | some last => if pyEndsWith last "\n" then "" else "\n"
     | none => "")

/-! ## The Mutation Engine loop body -/

def writeMsg (path content : String) : String :=
  "[WRITE] " ++ path ++ " (" ++ toString content.length ++ " bytes)"

def appendMsg (path content : String) : String :=
  "[APPEND] " ++ path ++ " (+" ++ toString content.length ++ " bytes)"

def patchMsg (path : String) : String :=
  "[PATCH] " ++ path ++ " (applied)"

/-- The body of `apply_operations`' loop for the `i`-th (1-based) operation.
Returns the filesystem as left by the body even when it raises: `makedirs`
precedes the action dispatch, so the patch-target-missing and unknown-action
errors fire after the parent directory was ensured. -/
def applyOp (root : String) (i : Nat) (op : Op) (fs : FS) :
    FS × Except OpError String :=
  let action := pyLower (op.action.getD "")
  let path := op.path.getD ""
  let content := op.content
  if action = "" ∨ path = "" then
    (fs, .error (.missingActionPath i))
  else
    match safe_path root path with
    | .error e => (fs, .error e)
    | .ok safe =>
      match refuse_if_locked safe with
      | .error e => (fs, .error e)
      | .ok _ =>
        let fs1 := fs.makedirs (dirname safe)
        if action = "write" then
          (fs1.setFile safe content, .ok (writeMsg path content))
        else if action = "append" then
          let oldc := (fs1.getFile safe).getD ""
          (fs1.setFile safe (oldc ++ content), .ok (appendMsg path content))
        else if action = "patch" then
          match fs1.getFile safe with
          | none => (fs1, .error (.patchTargetMissing path))
          | some oldText =>
            let patched0 := difflibRestore1 (pySplitlines content)
            let patched := if patched0 = [] then pySplitlines oldText else patched0
            (fs1.setFile safe (joinWithNewline patched), .ok (patchMsg path))
        else
          (fs1, .error (.unknownAction action))

/-- The enumerate-from-1 loop of `apply_operations`. On an exception the
results accumulated so far are discarded (the exception propagates), but the
filesystem changes already made persist. -/
def applyOpsGo (root : String) : FS → Nat → List Op → FS × Except OpError (List String)
  | fs, _, [] => (fs, .ok [])
  | fs, i, op :: rest =>
    match applyOp root i op fs with
    | (fs1, .error e) => (fs1, .error e)
    | (fs1, .ok r) =>
      match applyOpsGo root fs1 (i + 1) rest with
      | (fs2, .error e) => (fs2, .error e)
      | (fs2, .ok rs) => (fs2, .ok (r :: rs))

/-- `file_ops.apply_operations`. -/
def apply_operations (root : String) (fs : FS) (ops : List Op) :
    FS × Except OpError (List String) :=
  applyOpsGo root fs 1 ops

/-! ## Primitive-filesystem-call traces for the write action

The spec claims `write` is temp-file-then-rename atomic.  The source line
`with open(safe, "w", encoding="utf-8") as f: f.write(content)` decomposes
into the primitive filesystem calls the interpreter issues: the `open` with
mode `"w"` creates-or-truncates the target in place, then `write` fills it.
The trace type records these primitives (with `rename` included so that the
absence of any temp/rename step in the emitted trace is expressible). -/

inductive FsEvent
  | mkdirs (dir : String)
  | openTrunc (path : String)
  | writeAll (path : String) (content : String)
  | rename (src dst : String)
deriving DecidableEq, Repr

def stepEvent (fs : FS) : FsEvent → FS
  | .mkdirs d => fs.makedirs d
  | .openTrunc p => fs.setFile p ""
  | .writeAll p c => fs.setFile p c
  | .rename src dst =>
    match fs.getFile src with
    | some c => { (fs.setFile dst c) with
        files := ((fs.setFile dst c).files.filter (fun kv => kv.1 ≠ src)) }
    | none => fs

def runEvents (fs : FS) (evs : List FsEvent) : FS :=
  evs.foldl stepEvent fs

def isRenameEvent : FsEvent → Bool
  | .rename _ _ => true
  | _ => false

/-- The primitive calls the `write` branch of `apply_operations` issues for
a resolved path `safe`: ensure the parent directory, open-truncate the
target in place, write the payload. No temporary file, no rename. -/
def writeOpEvents (safe content : String) : List FsEvent :=
  [.mkdirs (dirname safe), .openTrunc safe, .writeAll safe content]

/-! ## Orchestrator data model
(orchestrator_ai_parallel_with_archive.py, task_runner.py, llm_openai.py) -/

/-- A task record: a Python dict whose keys may be absent. -/
structure TaskRec where
  id : Option String := none
  title : Option String := none
  description : Option String := none
  type : Option String := none
  status : Option String := none
  branch : Option String := none
  completed_at : Option String := none
  notes : Option String := none
deriving DecidableEq, Repr

/-- One record appended by `archive_append` (to either archive file). -/
structure ArchiveRecord where
  id : String
  title : String
  description : Option String := none
  error : Option String := none
  branch : Option String := none
  timestamp : String
  notes : Option String := none
deriving DecidableEq, Repr

/-- The observable side-effect state of one run: the mutated project tree,
the two archive files, the persisted task set (`save_tasks`), the trace of
task ids for which the git branch/commit/merge block ran, the feedback log
(`log_feedback`), and the number of Proposer (OpenAI) invocations. -/
structure World where
  projectFs : FS
  archiveDone : List ArchiveRecord := []
  archiveFailed : List ArchiveRecord := []
  savedTasks : Option (List TaskRec) := none
  gitTrace : List String := []
  feedbackLog : List (String × String) := []
  proposerCalls : Nat := 0
deriving DecidableEq, Repr

/-- The outcome of the external OpenAI call plus `_parse_model_json`:
either a provider/parse failure (missing key, connection error after the
retries, invalid JSON — all of which return an error result without touching
any file) or a validated operations list with notes. -/
inductive ProposerOutcome
  | fail (msg : String)
  | ok (ops : List Op) (notes : String)

/-- An uncaught Python exception escaping `execute_task`. -/
inductive PyErr
  | keyError (key : String)
deriving DecidableEq, Repr

/-- The dict returned by `run_task` / `call_openai_chat`. -/
structure ExecResult where
  feedback : String
  error : Bool
deriving DecidableEq, Repr

/-- The dry-run feedback summary of `call_openai_chat`. -/
def dryRunSummary (ops : List Op) (notes : String) : String :=
  "✅ [Dry Run] Proposed changes:\n" ++
    intercalateChar '\n' (ops.map (fun op => " - " ++ op.action.getD "" ++ " " ++ op.path.getD "")) ++
    (if notes ≠ "" then "\n\nNotes:\n" ++ notes else "")

/-- The applied-changes feedback summary of `call_openai_chat`. -/
def appliedSummary (results : List String) (notes : String) : String :=
  "✅ Changes applied:\n" ++
    intercalateChar '\n' (results.map (fun r => " - " ++ r)) ++
    (if notes ≠ "" then "\n\nNotes:\n" ++ notes else "")

/-- `llm_openai.call_openai_chat`, with the network/JSON layer abstracted
into `proposer`.  Counts one Proposer invocation, then: failure → error
result, no filesystem effect; success in dry-run → summary only, before
`apply_operations` is reached; success otherwise → `apply_operations`
(whose partial effects persist even when it raises, caught here into an
error result). -/
def call_openai_chat (root : String) (proposer : TaskRec → ProposerOutcome)
    (task : TaskRec) (dryRun : Bool) (w : World) : World × ExecResult :=
  let w := { w with proposerCalls := w.proposerCalls + 1 }
  match proposer task with
  | .fail msg => (w, ⟨"❌ " ++ msg, true⟩)
  | .ok ops notes =>
    if dryRun then
      (w, ⟨dryRunSummary ops notes, false⟩)
    else
      match apply_operations root w.projectFs ops with
      | (fs, .error e) =>
        ({ w with projectFs := fs },
         ⟨"❌ Apply operations failed: " ++ opErrorMsg e, true⟩)
      | (fs, .ok results) =>
        ({ w with projectFs := fs }, ⟨appliedSummary results notes, false⟩)

/-- `task_runner.run_task`. -/
def run_task (root : String) (proposer : TaskRec → ProposerOutcome)
    (task : TaskRec) (provider : String) (dryRun : Bool) (w : World) :
    World × ExecResult :=
  if provider ≠ "llm" then (w, ⟨"❌ Unsupported provider.", true⟩)
  else call_openai_chat root proposer task dryRun w

/-- `orchestrator.validate_task`: all of `REQUIRED_TASK_KEYS` present. -/
def validate_task (task : TaskRec) : Bool :=
  task.id.isSome && task.title.isSome && task.description.isSome

/-- `orchestrator.execute_task`. `gitResult tid` abstracts the outcome of the
external `git` branch/commit/merge triple for task `tid`; `now` stands for
`datetime.utcnow().isoformat() + "Z"`. The first line of the source is
`task_id = task["id"]`, which raises `KeyError` before `validate_task`
runs when the id is absent. -/
def execute_task (root : String) (proposer : TaskRec → ProposerOutcome)
    (gitResult : String → Except String Unit) (git dryRun : Bool)
    (provider now : String) (task : TaskRec) (w : World) :
    World × Except PyErr TaskRec :=
  match task.id with
  | none => (w, .error (.keyError "id"))
  | some taskId =>
    let title := task.title.getD taskId
    if ¬ validate_task task then
      let w := { w with archiveFailed := w.archiveFailed ++
        [{ id := taskId, title := title, error := some "validation failed",
           timestamp := now }] }
      (w, .ok { task with status := some "error" })
    else
      let wr := run_task root proposer task provider dryRun w
      let w := wr.1
      let feedback := pyStrip (wr.2).feedback
      let w := if feedback ≠ "" then
          { w with feedbackLog := w.feedbackLog ++ [(taskId, feedback)] }
        else w
      if (wr.2).error then
        let w := { w with archiveFailed := w.archiveFailed ++
          [{ id := taskId, title := title, description := task.description,
             error := some feedback, timestamp := now }] }
        (w, .ok { task with status := some "error" })
      else
        if git && !dryRun then
          let w := { w with gitTrace := w.gitTrace ++ [taskId] }
          match gitResult taskId with
          | .error e =>
            let w := { w with archiveFailed := w.archiveFailed ++
              [{ id := taskId, title := title, description := task.description,
                 error := some ("Git error: " ++ e), timestamp := now }] }
            (w, .ok { task with status := some "error" })
          | .ok _ =>
            let branch := "task/" ++ taskId
            let done := { task with
                status := some "done",
                completed_at := some now,
                branch := some branch }
            let w := { w with archiveDone := w.archiveDone ++
              [{ id := taskId, title := title, branch := done.branch,
                 description := task.description, timestamp := now,
                 notes := some (task.notes.getD "") }] }
            (w, .ok done)
        else
          let done := { task with
              status := some "done",
              completed_at := some now,
              branch := some ("task-" ++ taskId) }
          let w := { w with archiveDone := w.archiveDone ++
            [{ id := taskId, title := title, branch := done.branch,
               description := task.description, timestamp := now,
               notes := some (task.notes.getD "") }] }
          (w, .ok done)

/-- `orchestrator.VALID_STATUSES`. -/
def VALID_STATUSES : List String := ["pending", "error"]

/-- The worker-pool dispatch of `main`, modelled sequentially (the scheduled
tasks are independent; the claims proved below do not concern interleaving).
A `KeyError` escaping `execute_task` surfaces at `future.result()` and
aborts the run. -/
def execTasks (root : String) (proposer : TaskRec → ProposerOutcome)
    (gitResult : String → Except String Unit) (git dryRun : Bool)
    (provider now : String) : List TaskRec → World → World × Except PyErr (List TaskRec)
  | [], w => (w, .ok [])
  | t :: ts, w =>
    match execute_task root proposer gitResult git dryRun provider now t w with
    | (w, .error e) => (w, .error e)
    | (w, .ok t') =>
      match execTasks root proposer gitResult git dryRun provider now ts w with
      | (w, .error e) => (w, .error e)
      | (w, .ok ts') => (w, .ok (t' :: ts'))

/-- Python dict assignment `d[k] = v` on a string-keyed, insertion-ordered
dict represented as an association list. -/
def dictInsert (d : List (String × TaskRec)) (k : String) (v : TaskRec) :
    List (String × TaskRec) :=
  if d.any (fun kv => kv.1 = k) then
    d.map (fun kv => if kv.1 = k then (k, v) else kv)
  else d ++ [(k, v)]

/-- `{t["id"]: t for t in tasks}` extended by further insertions: `none`
models the `KeyError` raised when a task lacks the `id` key. -/
def buildTaskDict : List TaskRec → List (String × TaskRec) → Option (List (String × TaskRec))
  | [], d => some d
  | t :: ts, d =>
    match t.id with
    | none => none
    | some k => buildTaskDict ts (dictInsert d k t)

/-- Lines 157–180 of `orchestrator.main`: filter runnable tasks, dispatch,
merge the updates back by id, optionally prune, and (outside dry-run)
persist the final task set. -/
def runPool (root : String) (proposer : TaskRec → ProposerOutcome)
    (gitResult : String → Except String Unit)
    (git dryRun pruneDone : Bool) (provider now : String)
    (tasks : List TaskRec) (w : World) : World × Except PyErr (List TaskRec) :=
  let toRun := tasks.filter (fun t => VALID_STATUSES.contains (t.status.getD "pending"))
  match execTasks root proposer gitResult git dryRun provider now toRun w with
  | (w, .error e) => (w, .error e)
  | (w, .ok updated) =>
    match buildTaskDict tasks [] with
    | none => (w, .error (.keyError "id"))
    | some d0 =>
      match buildTaskDict updated d0 with
      | none => (w, .error (.keyError "id"))
      | some d =>
        let finalTasks := d.map (fun kv => kv.2)
        let finalTasks :=
          if pruneDone then finalTasks.filter (fun t => t.status == some "pending")
          else finalTasks
        let w := if dryRun then w else { w with savedTasks := some finalTasks }
        (w, .ok finalTasks)

/-! ## Helper lemmas about the filesystem model -/

theorem FS.dirs_setFile (fs : FS) (p c : String) : (fs.setFile p c).dirs = fs.dirs := by
  unfold FS.setFile; split <;> rfl

theorem FS.files_makedirs (fs : FS) (d : String) : (fs.makedirs d).files = fs.files := by
  unfold FS.makedirs; split <;> rfl

theorem FS.getFile_makedirs (fs : FS) (d p : String) :
    (fs.makedirs d).getFile p = fs.getFile p := by
  unfold FS.getFile; rw [FS.files_makedirs]

theorem FS.mem_dirs_makedirs (fs : FS) (d : String) : d ∈ (fs.makedirs d).dirs := by
  unfold FS.makedirs; split
  · assumption
  · simp

theorem find?_map_set (p c : String) :
    ∀ l : List (String × String), l.any (fun kv => kv.1 = p) = true →
    (l.map (fun kv => if kv.1 = p then (p, c) else kv)).find? (fun kv => kv.1 = p) =
      some (p, c) := by
  intro l
  induction l with
  | nil => intro h; cases h
  | cons kv l ih =>
    intro h
    by_cases hk : kv.1 = p
    · simp [List.find?, hk]
    · have h' : l.any (fun kv => kv.1 = p) = true := by
        rcases List.any_eq_true.mp h with ⟨kv₀, hmem, hkv₀⟩
        rcases List.mem_cons.mp hmem with heq | hmem
        · exact absurd (of_decide_eq_true (heq ▸ hkv₀ :)) hk
        · exact List.any_eq_true.mpr ⟨kv₀, hmem, hkv₀⟩
      simp only [List.map_cons, List.find?, if_neg hk]
      rw [show (decide (kv.1 = p)) = false from decide_eq_false hk]
      exact ih h'

theorem find?_map_set_ne (p q c : String) (hne : q ≠ p) :
    ∀ l : List (String × String),
    (l.map (fun kv => if kv.1 = p then (p, c) else kv)).find? (fun kv => kv.1 = q) =
      l.find? (fun kv => kv.1 = q) := by
  intro l
  induction l with
  | nil => rfl
  | cons kv l ih =>
    by_cases hk : kv.1 = p
    · have h1 : (decide ((p, c).1 = q)) = false :=
        decide_eq_false (fun hh => hne (hh ▸ rfl))
      have h2 : (decide (kv.1 = q)) = false :=
        decide_eq_false (fun hh => hne ((hk ▸ hh : p = q) ▸ rfl))
      simp only [List.map_cons, List.find?, if_pos hk, h1, h2]
      exact ih
    · simp only [List.map_cons, List.find?, if_neg hk]
      cases hd : decide (kv.1 = q)
      · exact ih
      · rfl

theorem map_set_of_no_key (p c : String) :
    ∀ l : List (String × String), l.any (fun kv => kv.1 = p) = false →
    l.map (fun kv => if kv.1 = p then (p, c) else kv) = l := by
  intro l
  induction l with
  | nil => intro _; rfl
  | cons kv l ih =>
    intro h
    have hk : ¬kv.1 = p := by
      intro hh
      simp [List.any_cons, hh] at h
    have h' : l.any (fun kv => kv.1 = p) = false := by
      cases hl : l.any (fun kv => kv.1 = p)
      · rfl
      · simp [List.any_cons, hl] at h
    simp only [List.map_cons, if_neg hk]
    rw [ih h']

theorem map_set_set (p a b : String) :
    ∀ l : List (String × String),
    (l.map (fun kv => if kv.1 = p then (p, a) else kv)).map
        (fun kv => if kv.1 = p then (p, b) else kv) =
      l.map (fun kv => if kv.1 = p then (p, b) else kv) := by
  intro l
  induction l with
  | nil => rfl
  | cons kv l ih =>
    by_cases hk : kv.1 = p
    · simp only [List.map_cons, if_pos hk, if_pos (rfl : (p, a).1 = p)]
      simp [ih]
    · simp only [List.map_cons, if_neg hk]
      rw [ih]

theorem FS.getFile_setFile_self (fs : FS) (p c : String) :
    (fs.setFile p c).getFile p = some c := by
  unfold FS.setFile FS.getFile
  by_cases h : fs.files.any (fun kv => kv.1 = p) = true
  · rw [if_pos h]
    rw [find?_map_set p c fs.files h]
    rfl
  · rw [if_neg h]
    have hnone : fs.files.find? (fun kv => decide (kv.1 = p)) = none := by
      rw [List.find?_eq_none]
      intro kv hkv hdec
      exact h (List.any_eq_true.mpr ⟨kv, hkv, hdec⟩)
    rw [List.find?_append, hnone]
    simp [List.find?]

theorem FS.getFile_setFile_ne (fs : FS) (p q c : String) (hne : q ≠ p) :
    (fs.setFile p c).getFile q = fs.getFile q := by
  unfold FS.setFile FS.getFile
  by_cases h : fs.files.any (fun kv => kv.1 = p) = true
  · rw [if_pos h]
    rw [find?_map_set_ne p q c hne fs.files]
  · rw [if_neg h]
    rw [List.find?_append]
    have h1 : (decide ((p, c).1 = q)) = false :=
      decide_eq_false (fun hh => hne (hh ▸ rfl))
    simp [List.find?, h1]

theorem FS.setFile_setFile (fs : FS) (p a b : String) :
    (fs.setFile p a).setFile p b = fs.setFile p b := by
  unfold FS.setFile
  by_cases h : fs.files.any (fun kv => kv.1 = p) = true
  · rw [if_pos h]
    have hany : ((fs.files.map (fun kv => if kv.1 = p then (p, a) else kv)).any
        (fun kv => kv.1 = p)) = true := by
      obtain ⟨kv₀, hmem, hkv₀⟩ := List.any_eq_true.mp h
      refine List.any_eq_true.mpr ⟨(p, a), ?_, by simp⟩
      refine List.mem_map.mpr ⟨kv₀, hmem, ?_⟩
      rw [if_pos (of_decide_eq_true hkv₀)]
    rw [if_pos hany, if_pos h]
    simp only [FS.mk.injEq, and_true]
    exact map_set_set p a b fs.files
  · rw [if_neg h]
    have hany : ((fs.files ++ [(p, a)]).any (fun kv => kv.1 = p)) = true := by
      refine List.any_eq_true.mpr ⟨(p, a), by simp, by simp⟩
    rw [if_pos hany, if_neg h, List.map_append]
    rw [map_set_of_no_key p b fs.files (Bool.eq_false_iff.mpr h)]
    simp

example :
    apply_operations "/repo" ⟨[], []⟩ [{ action := some "write", path := some "a.txt", content := "hi" }] =
      (⟨[("/repo/a.txt", "hi")], ["/repo"]⟩, .ok ["[WRITE] a.txt (2 bytes)"]) := by
  decide

example : safe_path "/repo" "../repo2/evil.txt" = .ok "/repo2/evil.txt" := by decide

example : safe_path "/repo" "../evil.txt" = .error (.pathEscape "../evil.txt") := by decide

example :
    (apply_operations "/repo" ⟨[("/repo/f.txt", "old")], []⟩
      [{ action := some "patch", path := some "f.txt", content := "hello" }]).1.getFile "/repo/f.txt" =
      some "old\n" := by decide

example :
    (apply_operations "/repo" ⟨[("/repo/f.txt", "old")], []⟩
      [{ action := some "patch", path := some "f.txt", content := "  x\nwhatever" }]).1.getFile "/repo/f.txt" =
      some "x\n" := by decide

/-! ## Lemmas about the Mutation Engine loop -/

theorem refuse_ok_not_locked {p : String} {u : Unit}
    (h : refuse_if_locked p = .ok u) : basename p ∉ AUTOMATION_CORE := by
  intro hmem
  unfold refuse_if_locked at h
  rw [if_pos hmem] at h
  cases h

theorem applyOpsGo_append (root : String) (pre rest : List Op) :
    ∀ (fs : FS) (i : Nat),
    applyOpsGo root fs i (pre ++ rest) =
      match applyOpsGo root fs i pre with
      | (fs1, .ok rs) =>
        match applyOpsGo root fs1 (i + pre.length) rest with
        | (fs2, .error e) => (fs2, .error e)
        | (fs2, .ok rs2) => (fs2, .ok (rs ++ rs2))
      | (fs1, .error e) => (fs1, .error e) := by
  induction pre with
  | nil =>
    intro fs i
    simp only [List.nil_append, applyOpsGo, List.length_nil, Nat.add_zero]
    cases h : applyOpsGo root fs i rest with
    | mk fs2 r2 => cases r2 <;> simp
  | cons op ops ih =>
    intro fs i
    simp only [List.cons_append, applyOpsGo, List.append_eq]
    cases hop : applyOp root i op fs with
    | mk fs1 r =>
      cases r with
      | error e => rfl
      | ok s =>
        simp only []
        rw [ih fs1 (i + 1)]
        cases hops : applyOpsGo root fs1 (i + 1) ops with
        | mk fsa ra =>
          cases ra with
          | error e => rfl
          | ok rs =>
            simp only []
            have hlen : i + 1 + ops.length = i + (op :: ops).length := by
              simp only [List.length_cons]
              omega
            rw [hlen]
            cases hrest : applyOpsGo root fsa (i + (op :: ops).length) rest with
            | mk fs2 r2 =>
              cases r2 with
              | error e => rfl
              | ok rs2 => rfl

theorem applyOp_preserves_locked (root : String) (i : Nat) (op : Op) (fs : FS)
    (q : String) (hq : basename q ∈ AUTOMATION_CORE) :
    ((applyOp root i op fs).1).getFile q = fs.getFile q := by
  unfold applyOp
  by_cases hmt : (pyLower (op.action.getD "") = "" ∨ op.path.getD "" = "")
  · rw [if_pos hmt]
  · rw [if_neg hmt]
    cases hsp : safe_path root (op.path.getD "") with
    | error e => rfl
    | ok safe =>
      dsimp only
      cases hrl : refuse_if_locked safe with
      | error e => rfl
      | ok u =>
        dsimp only
        have hnl : basename safe ∉ AUTOMATION_CORE := refuse_ok_not_locked hrl
        have hne : q ≠ safe := fun h => hnl (h ▸ hq)
        by_cases hw : pyLower (op.action.getD "") = "write"
        · simp only [if_pos hw]
          rw [FS.getFile_setFile_ne _ _ _ _ hne, FS.getFile_makedirs]
        · rw [if_neg hw]
          by_cases hap : pyLower (op.action.getD "") = "append"
          · simp only [if_pos hap]
            rw [FS.getFile_setFile_ne _ _ _ _ hne, FS.getFile_makedirs]
          · rw [if_neg hap]
            by_cases hpt : pyLower (op.action.getD "") = "patch"
            · simp only [if_pos hpt]
              cases hold : (fs.makedirs (dirname safe)).getFile safe with
              | none => simp [FS.getFile_makedirs]
              | some oldText =>
                dsimp only
                rw [FS.getFile_setFile_ne _ _ _ _ hne, FS.getFile_makedirs]
            · rw [if_neg hpt]
              exact FS.getFile_makedirs fs (dirname safe) q

theorem applyOpsGo_preserves_locked (root : String) :
    ∀ (ops : List Op) (fs : FS) (i : Nat) (q : String),
    basename q ∈ AUTOMATION_CORE →
    ((applyOpsGo root fs i ops).1).getFile q = fs.getFile q := by
  intro ops
  induction ops with
  | nil => intro fs i q _; rfl
  | cons op rest ih =>
    intro fs i q hq
    simp only [applyOpsGo]
    cases hop : applyOp root i op fs with
    | mk fs1 r =>
      have h1 : fs1.getFile q = fs.getFile q := by
        have := applyOp_preserves_locked root i op fs q hq
        rw [hop] at this
        exact this
      cases r with
      | error e => exact h1
      | ok s =>
        dsimp only
        cases hrest : applyOpsGo root fs1 (i + 1) rest with
        | mk fs2 r2 =>
          have h2 : fs2.getFile q = fs1.getFile q := by
            have := ih fs1 (i + 1) q hq
            rw [hrest] at this
            exact this
          cases r2 with
          | error e => exact h2.trans h1
          | ok rs => exact h2.trans h1

theorem apply_operations_step (root : String) (fs fs1 : FS) (pre post : List Op)
    (rs : List String) (op : Op)
    (hpre : apply_operations root fs pre = (fs1, .ok rs)) :
    apply_operations root fs (pre ++ op :: post) =
      match applyOp root (1 + pre.length) op fs1 with
      | (fs2, .error e) => (fs2, .error e)
      | (fs2, .ok r) =>
        match applyOpsGo root fs2 (1 + pre.length + 1) post with
        | (fs3, .error e) => (fs3, .error e)
        | (fs3, .ok rs2) => (fs3, .ok (rs ++ r :: rs2)) := by
  unfold apply_operations at hpre ⊢
  rw [applyOpsGo_append root pre (op :: post) fs 1, hpre]
  dsimp only
  simp only [applyOpsGo]
  cases hop : applyOp root (1 + pre.length) op fs1 with
  | mk fs2 r =>
    cases r with
    | error e => rfl
    | ok s =>
      dsimp only
      cases hrest : applyOpsGo root fs2 (1 + pre.length + 1) post with
      | mk fs3 r3 =>
        cases r3 with
        | error e => rfl
        | ok rs2 => rfl

theorem applyOp_missing (root : String) (i : Nat) (op : Op) (fs : FS)
    (h : pyLower (op.action.getD "") = "" ∨ op.path.getD "" = "") :
    applyOp root i op fs = (fs, .error (.missingActionPath i)) := by
  unfold applyOp
  rw [if_pos h]

theorem applyOp_escape (root : String) (i : Nat) (op : Op) (fs : FS) (e : OpError)
    (ha : pyLower (op.action.getD "") ≠ "")
    (hp : op.path.getD "" ≠ "")
    (hsp : safe_path root (op.path.getD "") = .error e) :
    applyOp root i op fs = (fs, .error e) := by
  unfold applyOp
  rw [if_neg (not_or.mpr ⟨ha, hp⟩), hsp]

theorem applyOp_locked (root : String) (i : Nat) (op : Op) (fs : FS) (safe : String)
    (ha : pyLower (op.action.getD "") ≠ "")
    (hp : op.path.getD "" ≠ "")
    (hsp : safe_path root (op.path.getD "") = .ok safe)
    (hl : basename safe ∈ AUTOMATION_CORE) :
    applyOp root i op fs = (fs, .error (.lockedFile (basename safe))) := by
  unfold applyOp
  rw [if_neg (not_or.mpr ⟨ha, hp⟩), hsp]
  dsimp only
  rw [show refuse_if_locked safe = .error (.lockedFile (basename safe)) by
    unfold refuse_if_locked; rw [if_pos hl]]

theorem applyOp_write (root : String) (i : Nat) (op : Op) (fs : FS) (safe : String)
    (hw : pyLower (op.action.getD "") = "write")
    (hp : op.path.getD "" ≠ "")
    (hsp : safe_path root (op.path.getD "") = .ok safe)
    (hl : basename safe ∉ AUTOMATION_CORE) :
    applyOp root i op fs =
      ((fs.makedirs (dirname safe)).setFile safe op.content,
       .ok (writeMsg (op.path.getD "") op.content)) := by
  have ha : pyLower (op.action.getD "") ≠ "" := by rw [hw]; decide
  unfold applyOp
  rw [if_neg (not_or.mpr ⟨ha, hp⟩), hsp]
  dsimp only
  rw [show refuse_if_locked safe = .ok () by
    unfold refuse_if_locked; rw [if_neg hl]]
  dsimp only
  rw [if_pos hw]

theorem applyOp_unknown (root : String) (i : Nat) (op : Op) (fs : FS) (safe : String)
    (ha : pyLower (op.action.getD "") ≠ "")
    (hp : op.path.getD "" ≠ "")
    (hsp : safe_path root (op.path.getD "") = .ok safe)
    (hl : basename safe ∉ AUTOMATION_CORE)
    (hact : pyLower (op.action.getD "") ∉ (["write", "append", "patch"] : List String)) :
    applyOp root i op fs =
      (fs.makedirs (dirname safe),
       .error (.unknownAction (pyLower (op.action.getD "")))) := by
  have hw : pyLower (op.action.getD "") ≠ "write" := fun h => hact (by rw [h]; decide)
  have hap : pyLower (op.action.getD "") ≠ "append" := fun h => hact (by rw [h]; decide)
  have hpt : pyLower (op.action.getD "") ≠ "patch" := fun h => hact (by rw [h]; decide)
  unfold applyOp
  rw [if_neg (not_or.mpr ⟨ha, hp⟩), hsp]
  dsimp only
  rw [show refuse_if_locked safe = .ok () by
    unfold refuse_if_locked; rw [if_neg hl]]
  dsimp only
  rw [if_neg hw, if_neg hap, if_neg hpt]

theorem runEvents_writeOp (fs : FS) (safe content : String) :
    runEvents fs (writeOpEvents safe content) =
      (fs.makedirs (dirname safe)).setFile safe content := by
  unfold runEvents writeOpEvents
  simp only [List.foldl_cons, List.foldl_nil, stepEvent]
  rw [FS.setFile_setFile]

/-! ## The claims -/

/-- C1, counterexample. The descendant test of `_safe_path` is the string
comparison `full.startswith(REPO_ROOT)` on the lexically normalized path,
not a canonical-descendant check: the operation `write ../repo2/evil.txt`
resolves to `/repo2/evil.txt`, which is *not* a descendant of the project
root `/repo`, yet the batch succeeds and creates that outside file — no
path-escape error is raised. -/
theorem safe_path_escape_cex :
    apply_operations "/repo" ⟨[], []⟩
        [{ action := some "write", path := some "../repo2/evil.txt", content := "x" }] =
      (⟨[("/repo2/evil.txt", "x")], ["/repo2"]⟩, .ok ["[WRITE] ../repo2/evil.txt (1 bytes)"])
    ∧ descendantOfRoot "/repo" "/repo2/evil.txt" = false := by
  decide

/-- C1, amended. The Mutation Engine resolves each operation's relative path
by joining it to the project root and lexically normalizing (defeating plain
`..` traversal but not symlinks), then tests containment by *string prefix*:
whenever the normalized absolute path does not start with the project-root
string, the batch fails with the path-escape error before any file is
created or modified by that operation (prior operations stay applied, later
ones are not attempted). Paths that normalize to a sibling of the root whose
name extends the root string are wrongly accepted (see the counterexample). -/
theorem safe_path_prefix_guard (root : String) (fs fs1 : FS) (pre post : List Op)
    (rs : List String) (op : Op)
    (hpre : apply_operations root fs pre = (fs1, .ok rs))
    (ha : pyLower (op.action.getD "") ≠ "")
    (hp : op.path.getD "" ≠ "")
    (hesc : pyStartsWith (normalizeAbs (joinPath root (op.path.getD ""))) root = false) :
    apply_operations root fs (pre ++ op :: post) =
      (fs1, .error (.pathEscape (op.path.getD ""))) := by
  have hsp : safe_path root (op.path.getD "") = .error (.pathEscape (op.path.getD "")) := by
    unfold safe_path
    simp only [hesc, Bool.false_eq_true, if_false]
  rw [apply_operations_step root fs fs1 pre post rs op hpre]
  rw [applyOp_escape root (1 + pre.length) op fs1 _ ha hp hsp]

/-- Witness for C1's amended theorem at a concrete input: one write whose
path normalizes to `/evil.txt`, which does not start with `/repo`; the
engine rejects it and leaves the (empty) filesystem untouched. -/
theorem safe_path_prefix_guard_witness :
    apply_operations "/repo" ⟨[], []⟩
        [{ action := some "write", path := some "../evil.txt", content := "x" }] =
      (⟨[], []⟩, .error (.pathEscape "../evil.txt")) :=
  safe_path_prefix_guard "/repo" ⟨[], []⟩ ⟨[], []⟩ [] []
    [] { action := some "write", path := some "../evil.txt", content := "x" }
    (by decide) (by decide) (by decide) (by decide)

/-- C2. `difflib.restore` never raises on unparseable input — it silently
drops every line not tagged `"  "` or `"- "` — so the `except` fallback
`patched = content.splitlines()` (the intended fallback-to-replace) is dead
code. On an existing file `/repo/f.txt` containing "old", a patch whose
payload "hello" is not a parseable patch leaves the file containing "old\n"
(the original content, newline-normalized), not the payload; and a payload
"  x\nwhatever" yields "x\n" — a partial merge that is neither the original
content nor the payload. -/
theorem patch_fallback_dead_code :
    (apply_operations "/repo" ⟨[("/repo/f.txt", "old")], []⟩
        [{ action := some "patch", path := some "f.txt", content := "hello" }]) =
      (⟨[("/repo/f.txt", "old\n")], ["/repo"]⟩, .ok ["[PATCH] f.txt (applied)"])
    ∧ ("old\n" ≠ "hello")
    ∧ (apply_operations "/repo" ⟨[("/repo/f.txt", "old")], []⟩
        [{ action := some "patch", path := some "f.txt", content := "  x\nwhatever" }]).1.getFile
          "/repo/f.txt" = some "x\n"
    ∧ difflibRestore1 (pySplitlines "hello") = [] := by
  decide

/-- C3, counterexample. The `write` action's primitive-call trace for a
target that already holds "data" contains no rename (hence no temp file +
atomic-rename step), and after its open-truncate step — before the payload
is written — the target exists with empty content: a truncated intermediate
state that the claim says can never exist. -/
theorem write_not_atomic_cex :
    (applyOp "/repo" 1 { action := some "write", path := some "a.txt", content := "hello" }
        ⟨[("/repo/a.txt", "data")], ["/repo"]⟩).1 =
      runEvents ⟨[("/repo/a.txt", "data")], ["/repo"]⟩ (writeOpEvents "/repo/a.txt" "hello")
    ∧ (writeOpEvents "/repo/a.txt" "hello").all (fun e => !isRenameEvent e) = true
    ∧ (runEvents ⟨[("/repo/a.txt", "data")], ["/repo"]⟩
        ((writeOpEvents "/repo/a.txt" "hello").take 2)).getFile "/repo/a.txt" = some ""
    ∧ (runEvents ⟨[("/repo/a.txt", "data")], ["/repo"]⟩
        (writeOpEvents "/repo/a.txt" "hello")).getFile "/repo/a.txt" = some "hello" := by
  decide

/-- C3, amended. `write` replaces the target's contents by opening the
resolved target itself with truncation and writing the payload in place —
parent directories are created as needed, and the final state holds exactly
the payload — but no temporary file and no rename are involved, so the
replacement is not atomic: the trace passes through a state in which the
target exists truncated. -/
theorem write_truncates_in_place (root : String) (i : Nat) (op : Op) (fs : FS)
    (safe : String)
    (hw : pyLower (op.action.getD "") = "write")
    (hp : op.path.getD "" ≠ "")
    (hsp : safe_path root (op.path.getD "") = .ok safe)
    (hl : basename safe ∉ AUTOMATION_CORE) :
    applyOp root i op fs =
      (runEvents fs (writeOpEvents safe op.content),
       .ok (writeMsg (op.path.getD "") op.content))
    ∧ (runEvents fs (writeOpEvents safe op.content)).getFile safe = some op.content
    ∧ dirname safe ∈ (runEvents fs (writeOpEvents safe op.content)).dirs
    ∧ (writeOpEvents safe op.content).all (fun e => !isRenameEvent e) = true := by
  rw [runEvents_writeOp]
  refine ⟨applyOp_write root i op fs safe hw hp hsp hl, ?_, ?_, rfl⟩
  · exact FS.getFile_setFile_self _ safe op.content
  · rw [show ((fs.makedirs (dirname safe)).setFile safe op.content).dirs =
        (fs.makedirs (dirname safe)).dirs from FS.dirs_setFile _ _ _]
    exact FS.mem_dirs_makedirs fs (dirname safe)

/-- Witness for C3's amended theorem: a concrete write into a fresh
subdirectory. -/
theorem write_truncates_in_place_witness :
    applyOp "/repo" 1 { action := some "write", path := some "sub/a.txt", content := "hi" }
        ⟨[], []⟩ =
      (runEvents ⟨[], []⟩ (writeOpEvents "/repo/sub/a.txt" "hi"),
       .ok (writeMsg "sub/a.txt" "hi"))
    ∧ (runEvents ⟨[], []⟩ (writeOpEvents "/repo/sub/a.txt" "hi")).getFile "/repo/sub/a.txt" =
        some "hi"
    ∧ dirname "/repo/sub/a.txt" ∈ (runEvents ⟨[], []⟩ (writeOpEvents "/repo/sub/a.txt" "hi")).dirs
    ∧ (writeOpEvents "/repo/sub/a.txt" "hi").all (fun e => !isRenameEvent e) = true :=
  write_truncates_in_place "/repo" 1
    { action := some "write", path := some "sub/a.txt", content := "hi" }
    ⟨[], []⟩ "/repo/sub/a.txt" (by decide) (by decide) (by decide) (by decide)

/-- C4. If the operations before `op` all succeed (producing state `fs1`)
and `op` resolves to a path whose base name is in the Lock Registry's
protected set, then the whole batch fails with the locked-file error, the
final filesystem is exactly `fs1` — so the operations already applied stay
applied (no rollback) and no operation after `op` is attempted (the result
does not depend on `post`) — and every file whose base name is protected
has exactly the content it had before the batch (locked files are never
touched, even partially). -/
theorem locked_file_aborts_batch (root : String) (fs fs1 : FS) (pre post : List Op)
    (rs : List String) (op : Op) (safe : String)
    (hpre : apply_operations root fs pre = (fs1, .ok rs))
    (ha : pyLower (op.action.getD "") ≠ "")
    (hp : op.path.getD "" ≠ "")
    (hsp : safe_path root (op.path.getD "") = .ok safe)
    (hl : basename safe ∈ AUTOMATION_CORE) :
    apply_operations root fs (pre ++ op :: post) =
      (fs1, .error (.lockedFile (basename safe)))
    ∧ ∀ q, basename q ∈ AUTOMATION_CORE → fs1.getFile q = fs.getFile q := by
  constructor
  · rw [apply_operations_step root fs fs1 pre post rs op hpre]
    rw [applyOp_locked root (1 + pre.length) op fs1 safe ha hp hsp hl]
  · intro q hq
    have := applyOpsGo_preserves_locked root pre fs 1 q hq
    unfold apply_operations at hpre
    rw [hpre] at this
    exact this

/-- Witness for C4: a batch `[write a.txt, write sub/utils.py, write b.txt]`
against an empty tree applies the first write, refuses the locked
`utils.py` in a subdirectory, and never reaches `b.txt`. -/
theorem locked_file_aborts_batch_witness :
    apply_operations "/repo" ⟨[], []⟩
        [{ action := some "write", path := some "a.txt", content := "x" },
         { action := some "write", path := some "sub/utils.py", content := "y" },
         { action := some "write", path := some "b.txt", content := "z" }] =
      (⟨[("/repo/a.txt", "x")], ["/repo"]⟩, .error (.lockedFile "utils.py"))
    ∧ ∀ q, basename q ∈ AUTOMATION_CORE →
        (⟨[("/repo/a.txt", "x")], ["/repo"]⟩ : FS).getFile q = (⟨[], []⟩ : FS).getFile q := by
  have h := locked_file_aborts_batch "/repo" ⟨[], []⟩ ⟨[("/repo/a.txt", "x")], ["/repo"]⟩
    [{ action := some "write", path := some "a.txt", content := "x" }]
    [{ action := some "write", path := some "b.txt", content := "z" }]
    ["[WRITE] a.txt (1 bytes)"]
    { action := some "write", path := some "sub/utils.py", content := "y" }
    "/repo/sub/utils.py"
    (by decide) (by decide) (by decide) (by decide) (by decide)
  exact h

/-- C9. The locked-file check of the Mutation Engine compares only the base
name of the resolved path against `AUTOMATION_CORE`, whose value is exactly
the five protected file names; consequently an otherwise-valid operation
resolving to *any* directory is refused (with the filesystem untouched by
that operation) whenever its base name is protected — regardless of the
directory part of the path. -/
theorem locked_basename_any_directory (root : String) (i : Nat) (op : Op) (fs : FS)
    (safe : String)
    (ha : pyLower (op.action.getD "") ≠ "")
    (hp : op.path.getD "" ≠ "")
    (hsp : safe_path root (op.path.getD "") = .ok safe)
    (hl : basename safe ∈ AUTOMATION_CORE) :
    applyOp root i op fs = (fs, .error (.lockedFile (basename safe)))
    ∧ AUTOMATION_CORE =
        ["orchestrator_ai_parallel_with_archive.py", "task_runner.py", "utils.py",
         "git_utils.py", "reset_tasks.py"] :=
  ⟨applyOp_locked root i op fs safe ha hp hsp hl, rfl⟩

/-- Witness for C9: `git_utils.py` deep inside a nested directory is still
refused. -/
theorem locked_basename_any_directory_witness :
    applyOp "/repo" 1
        { action := some "append", path := some "deep/nested/git_utils.py", content := "q" }
        ⟨[], []⟩ =
      (⟨[], []⟩, .error (.lockedFile "git_utils.py"))
    ∧ AUTOMATION_CORE =
        ["orchestrator_ai_parallel_with_archive.py", "task_runner.py", "utils.py",
         "git_utils.py", "reset_tasks.py"] :=
  locked_basename_any_directory "/repo" 1
    { action := some "append", path := some "deep/nested/git_utils.py", content := "q" }
    ⟨[], []⟩ "/repo/deep/nested/git_utils.py"
    (by decide) (by decide) (by decide) (by decide)

/-- C10. Given a batch whose prefix `pre` succeeds with state `fs1`:
(a) an operation whose action key is missing or empty, or whose path key is
missing or empty, makes `apply_operations` raise the missing-action/path
error for that (1-based) position and abort the rest of the batch with the
prefix's effects kept;
(b) an operation whose lower-cased action is none of write/append/patch
(path valid, not locked) makes it raise the unknown-action error and abort
likewise (the failing operation's only effect is the `os.makedirs` of the
parent, which touches no file);
(c) action matching is case-insensitive: any action spelled so that its
lower-casing is "write" dispatches exactly as a write. -/
theorem malformed_operation_aborts (root : String) (fs fs1 : FS) (pre post : List Op)
    (rs : List String) (op : Op)
    (hpre : apply_operations root fs pre = (fs1, .ok rs)) :
    (pyLower (op.action.getD "") = "" ∨ op.path.getD "" = "" →
      apply_operations root fs (pre ++ op :: post) =
        (fs1, .error (.missingActionPath (1 + pre.length))))
    ∧ (∀ safe, pyLower (op.action.getD "") ≠ "" → op.path.getD "" ≠ "" →
        safe_path root (op.path.getD "") = .ok safe →
        basename safe ∉ AUTOMATION_CORE →
        pyLower (op.action.getD "") ∉ (["write", "append", "patch"] : List String) →
        apply_operations root fs (pre ++ op :: post) =
          (fs1.makedirs (dirname safe),
           .error (.unknownAction (pyLower (op.action.getD "")))))
    ∧ (∀ safe, pyLower (op.action.getD "") = "write" → op.path.getD "" ≠ "" →
        safe_path root (op.path.getD "") = .ok safe →
        basename safe ∉ AUTOMATION_CORE →
        applyOp root (1 + pre.length) op fs1 =
          ((fs1.makedirs (dirname safe)).setFile safe op.content,
           .ok (writeMsg (op.path.getD "") op.content))) := by
  refine ⟨?_, ?_, ?_⟩
  · intro hmt
    rw [apply_operations_step root fs fs1 pre post rs op hpre]
    rw [applyOp_missing root (1 + pre.length) op fs1 hmt]
  · intro safe ha hp hsp hl hact
    rw [apply_operations_step root fs fs1 pre post rs op hpre]
    rw [applyOp_unknown root (1 + pre.length) op fs1 safe ha hp hsp hl hact]
  · intro safe hw hp hsp hl
    exact applyOp_write root (1 + pre.length) op fs1 safe hw hp hsp hl

/-- Witness for C10 at concrete inputs: an action-less operation aborts with
the 1-based index message; action "delete" aborts with unknown-action after
creating the parent directory; action "WRITE" dispatches as a write. -/
theorem malformed_operation_aborts_witness :
    apply_operations "/repo" ⟨[], []⟩
        [{ path := some "a.txt", content := "x" }] =
      (⟨[], []⟩, .error (.missingActionPath 1))
    ∧ apply_operations "/repo" ⟨[], []⟩
        [{ action := some "delete", path := some "a.txt", content := "x" }] =
        ((⟨[], []⟩ : FS).makedirs (dirname "/repo/a.txt"), .error (.unknownAction "delete"))
    ∧ applyOp "/repo" 1 { action := some "WRITE", path := some "a.txt", content := "x" } ⟨[], []⟩ =
        (((⟨[], []⟩ : FS).makedirs (dirname "/repo/a.txt")).setFile "/repo/a.txt" "x",
         .ok (writeMsg "a.txt" "x")) := by
  refine ⟨?_, ?_, ?_⟩
  · exact (malformed_operation_aborts "/repo" ⟨[], []⟩ ⟨[], []⟩ [] [] []
      { path := some "a.txt", content := "x" } (by decide)).1 (by decide)
  · exact (malformed_operation_aborts "/repo" ⟨[], []⟩ ⟨[], []⟩ [] [] []
      { action := some "delete", path := some "a.txt", content := "x" } (by decide)).2.1
      "/repo/a.txt" (by decide) (by decide) (by decide) (by decide) (by decide)
  · exact (malformed_operation_aborts "/repo" ⟨[], []⟩ ⟨[], []⟩ [] [] []
      { action := some "WRITE", path := some "a.txt", content := "x" } (by decide)).2.2
      "/repo/a.txt" (by decide) (by decide) (by decide) (by decide)

/-- C5. A task lacking the required `id` field does not get marked error and
archived: `execute_task` begins with `task_id = task["id"]`, which raises
`KeyError` *before* `validate_task` runs, the exception escapes the worker,
surfaces at `future.result()`, and aborts the whole run — even though the
code's own validator (second conjunct) classifies exactly this task as
invalid. Nothing is archived, no Proposer call is made, and the run does
not complete normally for remaining tasks. -/
theorem missing_id_crashes_run :
    runPool "/repo" (fun _ => .ok [] "") (fun _ => .ok ()) false false false "llm" "T"
        [{ title := some "t", description := some "d", status := some "pending" }]
        { projectFs := ⟨[], []⟩ } =
      ({ projectFs := ⟨[], []⟩ }, .error (.keyError "id"))
    ∧ validate_task { title := some "t", description := some "d", status := some "pending" } =
        false := by
  decide

/-- C7, counterexample. A task that completes successfully with VCS
integration disabled (`git = false`) still gets a `branch` field — the
placeholder `task-t1` from `task["branch"] = branch or f"task-{task_id}"` —
although no git operation ran (`gitTrace` stays empty), contradicting
"set only on successful VCS integration". -/
theorem branch_without_vcs_cex :
    (execute_task "/repo" (fun _ => .ok [] "note") (fun _ => .ok ()) false false "llm" "T"
        { id := some "t1", title := some "A", description := some "B", status := some "pending" }
        { projectFs := ⟨[], []⟩ }).2 =
      .ok { id := some "t1", title := some "A", description := some "B",
            status := some "done", completed_at := some "T", branch := some "task-t1" }
    ∧ ((execute_task "/repo" (fun _ => .ok [] "note") (fun _ => .ok ()) false false "llm" "T"
        { id := some "t1", title := some "A", description := some "B", status := some "pending" }
        { projectFs := ⟨[], []⟩ }).1).gitTrace = [] := by
  decide

/-- C7, amended. Whenever `execute_task` returns a task, the `branch` field
obeys: on success (status `done`) it is always set — to `task/{id}` when the
git block ran (VCS enabled and not dry-run; the block only succeeds jointly
with the task), and to the placeholder `task-{id}` otherwise (VCS disabled
or dry-run) — and `completed_at` is set to the current timestamp; on
failure (status `error`) the `branch` field is left exactly as it was on
the incoming task. -/
theorem branch_field_discipline (root : String) (proposer : TaskRec → ProposerOutcome)
    (gitResult : String → Except String Unit) (git dryRun : Bool)
    (provider now : String) (task : TaskRec) (w : World) (w' : World) (t' : TaskRec)
    (h : execute_task root proposer gitResult git dryRun provider now task w = (w', .ok t')) :
    (t'.status = some "done" →
      ∃ tid, task.id = some tid ∧
        t'.branch = some (if git && !dryRun then "task/" ++ tid else "task-" ++ tid) ∧
        t'.completed_at = some now)
    ∧ (t'.status = some "error" → t'.branch = task.branch) := by
  unfold execute_task at h
  cases hid : task.id with
  | none =>
    rw [hid] at h
    exact absurd (congrArg Prod.snd h) (by simp)
  | some tid =>
    rw [hid] at h
    dsimp only at h
    by_cases hv : validate_task task = true
    · rw [if_neg (by simp [hv])] at h
      cases hrun : run_task root proposer task provider dryRun w with
      | mk w1 res =>
        rw [hrun] at h
        dsimp only at h
        by_cases herr : res.error = true
        · rw [if_pos herr] at h
          have h2 := congrArg Prod.snd h
          dsimp only at h2
          injection h2 with h3
          subst h3
          refine ⟨fun hd => ?_, fun _ => rfl⟩
          · simp at hd
        · rw [if_neg herr] at h
          by_cases hg : (git && !dryRun) = true
          · rw [if_pos hg] at h
            cases hgr : gitResult tid with
            | error e =>
              rw [hgr] at h
              dsimp only at h
              have h2 := congrArg Prod.snd h
              dsimp only at h2
              injection h2 with h3
              subst h3
              refine ⟨fun hd => ?_, fun _ => rfl⟩
              · simp at hd
            | ok u =>
              rw [hgr] at h
              dsimp only at h
              have h2 := congrArg Prod.snd h
              dsimp only at h2
              injection h2 with h3
              subst h3
              refine ⟨fun _ => ⟨tid, rfl, ?_, rfl⟩, fun he => ?_⟩
              · rw [if_pos hg]
              · simp at he
          · rw [if_neg hg] at h
            have h2 := congrArg Prod.snd h
            dsimp only at h2
            injection h2 with h3
            subst h3
            refine ⟨fun _ => ⟨tid, rfl, ?_, rfl⟩, fun he => ?_⟩
            · rw [if_neg hg]
            · simp at he
    · rw [if_pos (by simp [hv])] at h
      have h2 := congrArg Prod.snd h
      dsimp only at h2
      injection h2 with h3
      subst h3
      refine ⟨fun hd => ?_, fun _ => rfl⟩
      · simp at hd

/-- Witness for C7's amended theorem: with VCS enabled and the git triple
succeeding on a concrete pending task, the returned done task carries
branch `task/t1`. -/
theorem branch_field_discipline_witness :
    ∃ tid,
      ({ id := some "t1", title := some "A", description := some "B",
         status := some "pending" } : TaskRec).id = some tid ∧
      ({ id := some "t1", title := some "A", description := some "B",
         status := some "done", completed_at := some "T",
         branch := some "task/t1" } : TaskRec).branch =
        some (if true && !false then "task/" ++ tid else "task-" ++ tid) ∧
      ({ id := some "t1", title := some "A", description := some "B",
         status := some "done", completed_at := some "T",
         branch := some "task/t1" } : TaskRec).completed_at = some "T" :=
  (branch_field_discipline "/repo" (fun _ => .ok [] "note") (fun _ => .ok ()) true false
    "llm" "T"
    { id := some "t1", title := some "A", description := some "B", status := some "pending" }
    { projectFs := ⟨[], []⟩ }
    ((execute_task "/repo" (fun _ => .ok [] "note") (fun _ => .ok ()) true false "llm" "T"
      { id := some "t1", title := some "A", description := some "B", status := some "pending" }
      { projectFs := ⟨[], []⟩ }).1)
    { id := some "t1", title := some "A", description := some "B",
      status := some "done", completed_at := some "T", branch := some "task/t1" }
    (by decide)).1 (by decide)

/-- C6, counterexample. A dry run over one valid pending task performs no
file mutation, no VCS operation, and no task-set write — but it *does*
append a record to the completed-tasks archive file (`archive_append` at the
end of `execute_task` is not guarded by `args.dry_run`), so "no mutating
side effects at all" is false. -/
theorem dry_run_archive_write_cex :
    ((runPool "/repo"
        (fun _ => .ok [{ action := some "write", path := some "a.txt", content := "hi" }] "")
        (fun _ => .ok ()) true true false "llm" "T"
        [{ id := some "t1", title := some "A", description := some "B",
           status := some "pending" }]
        { projectFs := ⟨[], []⟩ }).1).archiveDone.length = 1
    ∧ ((runPool "/repo"
        (fun _ => .ok [{ action := some "write", path := some "a.txt", content := "hi" }] "")
        (fun _ => .ok ()) true true false "llm" "T"
        [{ id := some "t1", title := some "A", description := some "B",
           status := some "pending" }]
        { projectFs := ⟨[], []⟩ }).1).projectFs = ⟨[], []⟩
    ∧ ((runPool "/repo"
        (fun _ => .ok [{ action := some "write", path := some "a.txt", content := "hi" }] "")
        (fun _ => .ok ()) true true false "llm" "T"
        [{ id := some "t1", title := some "A", description := some "B",
           status := some "pending" }]
        { projectFs := ⟨[], []⟩ }).1).gitTrace = []
    ∧ ((runPool "/repo"
        (fun _ => .ok [{ action := some "write", path := some "a.txt", content := "hi" }] "")
        (fun _ => .ok ()) true true false "llm" "T"
        [{ id := some "t1", title := some "A", description := some "B",
           status := some "pending" }]
        { projectFs := ⟨[], []⟩ }).1).savedTasks = none := by
  decide

theorem run_task_dry_world (root : String) (proposer : TaskRec → ProposerOutcome)
    (task : TaskRec) (provider : String) (w : World) :
    ((run_task root proposer task provider true w).1).projectFs = w.projectFs
    ∧ ((run_task root proposer task provider true w).1).gitTrace = w.gitTrace
    ∧ ((run_task root proposer task provider true w).1).savedTasks = w.savedTasks := by
  unfold run_task call_openai_chat
  by_cases hp : provider ≠ "llm"
  · rw [if_pos hp]
    exact ⟨rfl, rfl, rfl⟩
  · rw [if_neg hp]
    cases proposer task <;> exact ⟨rfl, rfl, rfl⟩

theorem execute_task_dry_world (root : String) (proposer : TaskRec → ProposerOutcome)
    (gitResult : String → Except String Unit) (git : Bool) (provider now : String)
    (task : TaskRec) (w : World) :
    ((execute_task root proposer gitResult git true provider now task w).1).projectFs =
      w.projectFs
    ∧ ((execute_task root proposer gitResult git true provider now task w).1).gitTrace =
      w.gitTrace
    ∧ ((execute_task root proposer gitResult git true provider now task w).1).savedTasks =
      w.savedTasks := by
  unfold execute_task
  cases task.id with
  | none => exact ⟨rfl, rfl, rfl⟩
  | some tid =>
    dsimp only
    by_cases hv : validate_task task = true
    · rw [if_neg (by simp [hv])]
      obtain ⟨h1, h2, h3⟩ := run_task_dry_world root proposer task provider w
      cases hrun : run_task root proposer task provider true w with
      | mk w1 res =>
        rw [hrun] at h1 h2 h3
        dsimp only
        by_cases hfb : pyStrip res.feedback ≠ ""
        · rw [if_pos hfb]
          by_cases herr : res.error = true
          · rw [if_pos herr]
            exact ⟨h1, h2, h3⟩
          · rw [if_neg herr]
            rw [show (git && !true) = false by simp]
            exact ⟨h1, h2, h3⟩
        · rw [if_neg hfb]
          by_cases herr : res.error = true
          · rw [if_pos herr]
            exact ⟨h1, h2, h3⟩
          · rw [if_neg herr]
            rw [show (git && !true) = false by simp]
            exact ⟨h1, h2, h3⟩
    · rw [if_pos (by simp [hv])]
      exact ⟨rfl, rfl, rfl⟩

theorem execTasks_dry_world (root : String) (proposer : TaskRec → ProposerOutcome)
    (gitResult : String → Except String Unit) (git : Bool) (provider now : String) :
    ∀ (ts : List TaskRec) (w : World),
    ((execTasks root proposer gitResult git true provider now ts w).1).projectFs = w.projectFs
    ∧ ((execTasks root proposer gitResult git true provider now ts w).1).gitTrace = w.gitTrace
    ∧ ((execTasks root proposer gitResult git true provider now ts w).1).savedTasks =
      w.savedTasks := by
  intro ts
  induction ts with
  | nil => intro w; exact ⟨rfl, rfl, rfl⟩
  | cons t ts ih =>
    intro w
    obtain ⟨h1, h2, h3⟩ := execute_task_dry_world root proposer gitResult git provider now t w
    simp only [execTasks]
    cases hexec : execute_task root proposer gitResult git true provider now t w with
    | mk w1 r =>
      rw [hexec] at h1 h2 h3
      cases r with
      | error e => exact ⟨h1, h2, h3⟩
      | ok t' =>
        dsimp only
        obtain ⟨g1, g2, g3⟩ := ih w1
        cases hrest : execTasks root proposer gitResult git true provider now ts w1 with
        | mk w2 r2 =>
          rw [hrest] at g1 g2 g3
          cases r2 with
          | error e => exact ⟨g1.trans h1, g2.trans h2, g3.trans h3⟩
          | ok ts' => exact ⟨g1.trans h1, g2.trans h2, g3.trans h3⟩

theorem runPool_dry_world (root : String)
    (proposer : TaskRec → ProposerOutcome) (gitResult : String → Except String Unit)
    (git pruneDone : Bool) (provider now : String) (tasks : List TaskRec) (w : World) :
    ((runPool root proposer gitResult git true pruneDone provider now tasks w).1).projectFs =
      w.projectFs
    ∧ ((runPool root proposer gitResult git true pruneDone provider now tasks w).1).gitTrace =
      w.gitTrace
    ∧ ((runPool root proposer gitResult git true pruneDone provider now tasks w).1).savedTasks =
      w.savedTasks := by
  unfold runPool
  obtain ⟨h1, h2, h3⟩ := execTasks_dry_world root proposer gitResult git provider now
    (tasks.filter (fun t => VALID_STATUSES.contains (t.status.getD "pending"))) w
  dsimp only
  cases hexec : execTasks root proposer gitResult git true provider now
      (tasks.filter (fun t => VALID_STATUSES.contains (t.status.getD "pending"))) w with
  | mk w1 r =>
    rw [hexec] at h1 h2 h3
    cases r with
    | error e => exact ⟨h1, h2, h3⟩
    | ok updated =>
      dsimp only
      cases buildTaskDict tasks [] with
      | none => exact ⟨h1, h2, h3⟩
      | some d0 =>
        dsimp only
        cases buildTaskDict updated d0 with
        | none => exact ⟨h1, h2, h3⟩
        | some d => exact ⟨h1, h2, h3⟩

/-- C6, amended. With the dry-run option enabled, a run performs no file
mutation, no VCS operation, and no task-set write — the project tree, the
git trace, and the persisted task set are untouched whatever the Proposer
returns and however many tasks run — and for each task the Proposer's
proposed operations are only reported in the execution result's feedback
(the dry-run summary); however, archive records and the feedback log are
still written (see the counterexample). -/
theorem dry_run_no_mutation_no_vcs_no_save (root : String)
    (proposer : TaskRec → ProposerOutcome) (gitResult : String → Except String Unit)
    (git pruneDone : Bool) (provider now : String) (tasks : List TaskRec) (w : World) :
    ((runPool root proposer gitResult git true pruneDone provider now tasks w).1).projectFs =
      w.projectFs
    ∧ ((runPool root proposer gitResult git true pruneDone provider now tasks w).1).gitTrace =
      w.gitTrace
    ∧ ((runPool root proposer gitResult git true pruneDone provider now tasks w).1).savedTasks =
      w.savedTasks
    ∧ (∀ task ops notes, proposer task = .ok ops notes →
        call_openai_chat root proposer task true w =
          ({ w with proposerCalls := w.proposerCalls + 1 },
           ⟨dryRunSummary ops notes, false⟩)) := by
  obtain ⟨h1, h2, h3⟩ :=
    runPool_dry_world root proposer gitResult git pruneDone provider now tasks w
  refine ⟨h1, h2, h3, ?_⟩
  intro task ops notes hprop
  unfold call_openai_chat
  rw [hprop]
  rfl

/-- Witness for C6's amended theorem at a concrete dry run: nothing in the
project tree, git trace, or task set changes, and the feedback is exactly
the dry-run summary of the proposed write. -/
theorem dry_run_no_mutation_no_vcs_no_save_witness :
    ((runPool "/repo"
        (fun _ => .ok [{ action := some "write", path := some "a.txt", content := "hi" }] "")
        (fun _ => .ok ()) true true false "llm" "T"
        [{ id := some "t1", title := some "A", description := some "B",
           status := some "pending" }]
        { projectFs := ⟨[("/repo/old.txt", "keep")], []⟩ }).1).projectFs =
      ⟨[("/repo/old.txt", "keep")], []⟩
    ∧ call_openai_chat "/repo"
        (fun _ => .ok [{ action := some "write", path := some "a.txt", content := "hi" }] "")
        { id := some "t1", title := some "A", description := some "B",
          status := some "pending" } true
        { projectFs := ⟨[("/repo/old.txt", "keep")], []⟩ } =
      ({ projectFs := ⟨[("/repo/old.txt", "keep")], []⟩, proposerCalls := 1 },
       ⟨dryRunSummary [{ action := some "write", path := some "a.txt", content := "hi" }] "",
        false⟩) := by
  have h := dry_run_no_mutation_no_vcs_no_save "/repo"
    (fun _ => .ok [{ action := some "write", path := some "a.txt", content := "hi" }] "")
    (fun _ => .ok ()) true false "llm" "T"
    [{ id := some "t1", title := some "A", description := some "B",
       status := some "pending" }]
    { projectFs := ⟨[("/repo/old.txt", "keep")], []⟩ }
  exact ⟨h.1, h.2.2.2
    { id := some "t1", title := some "A", description := some "B", status := some "pending" }
    [{ action := some "write", path := some "a.txt", content := "hi" }] "" rfl⟩

theorem buildTaskDict_total :
    ∀ (ts : List TaskRec), (∀ t ∈ ts, t.id.isSome = true) →
    ∀ d, ∃ d', buildTaskDict ts d = some d' := by
  intro ts
  induction ts with
  | nil => intro _ d; exact ⟨d, rfl⟩
  | cons t ts ih =>
    intro h d
    cases hid : t.id with
    | none =>
      have := h t (by simp)
      rw [hid] at this
      simp at this
    | some k =>
      simp only [buildTaskDict, hid]
      exact ih (fun u hu => h u (by simp [hu])) (dictInsert d k t)

/-- C8. Running the pool over a task set in which every task already has
status `done` (as after a fully successful first run, where every task also
has an id) performs zero Proposer calls, zero filesystem mutations, zero
VCS operations, and writes nothing to either archive or the feedback log:
the status filter removes every task, so nothing is dispatched, and the run
completes normally. -/
theorem done_task_set_second_run_noop (root : String)
    (proposer : TaskRec → ProposerOutcome) (gitResult : String → Except String Unit)
    (git dryRun pruneDone : Bool) (provider now : String)
    (tasks : List TaskRec) (w : World)
    (hdone : ∀ t ∈ tasks, t.status = some "done")
    (hid : ∀ t ∈ tasks, t.id.isSome = true) :
    ((runPool root proposer gitResult git dryRun pruneDone provider now tasks w).1).proposerCalls =
      w.proposerCalls
    ∧ ((runPool root proposer gitResult git dryRun pruneDone provider now tasks w).1).projectFs =
      w.projectFs
    ∧ ((runPool root proposer gitResult git dryRun pruneDone provider now tasks w).1).gitTrace =
      w.gitTrace
    ∧ ((runPool root proposer gitResult git dryRun pruneDone provider now tasks w).1).archiveDone =
      w.archiveDone
    ∧ ((runPool root proposer gitResult git dryRun pruneDone provider now tasks w).1).archiveFailed =
      w.archiveFailed
    ∧ ((runPool root proposer gitResult git dryRun pruneDone provider now tasks w).1).feedbackLog =
      w.feedbackLog
    ∧ ∃ fin, (runPool root proposer gitResult git dryRun pruneDone provider now tasks w).2 =
        .ok fin := by
  have hfilter :
      tasks.filter (fun t => VALID_STATUSES.contains (t.status.getD "pending")) = [] := by
    rw [List.filter_eq_nil_iff]
    intro t ht
    rw [hdone t ht]
    decide
  obtain ⟨d0, hd0⟩ := buildTaskDict_total tasks hid []
  unfold runPool
  rw [hfilter]
  dsimp only [execTasks]
  rw [hd0]
  dsimp only [buildTaskDict]
  cases dryRun with
  | true => exact ⟨rfl, rfl, rfl, rfl, rfl, rfl, _, rfl⟩
  | false => exact ⟨rfl, rfl, rfl, rfl, rfl, rfl, _, rfl⟩

/-- Witness for C8: a one-task set whose task is `done` leaves a marked
world (nonzero counters would show any activity) exactly unchanged except
for the final task-set write. -/
theorem done_task_set_second_run_noop_witness :
    ((runPool "/repo" (fun _ => .ok [] "") (fun _ => .ok ()) true false false "llm" "T"
        [{ id := some "t1", title := some "A", description := some "B",
           status := some "done" }]
        { projectFs := ⟨[("/repo/x", "v")], []⟩, proposerCalls := 7 }).1).proposerCalls = 7
    ∧ ((runPool "/repo" (fun _ => .ok [] "") (fun _ => .ok ()) true false false "llm" "T"
        [{ id := some "t1", title := some "A", description := some "B",
           status := some "done" }]
        { projectFs := ⟨[("/repo/x", "v")], []⟩, proposerCalls := 7 }).1).projectFs =
      ⟨[("/repo/x", "v")], []⟩
    ∧ ((runPool "/repo" (fun _ => .ok [] "") (fun _ => .ok ()) true false false "llm" "T"
        [{ id := some "t1", title := some "A", description := some "B",
           status := some "done" }]
        { projectFs := ⟨[("/repo/x", "v")], []⟩, proposerCalls := 7 }).1).gitTrace = [] := by
  have h := done_task_set_second_run_noop "/repo" (fun _ => .ok [] "") (fun _ => .ok ())
    true false false "llm" "T"
    [{ id := some "t1", title := some "A", description := some "B", status := some "done" }]
    { projectFs := ⟨[("/repo/x", "v")], []⟩, proposerCalls := 7 }
    (by decide) (by decide)
  exact ⟨h.1, h.2.1, h.2.2.1⟩
